import Mathlib

/-!
# Verification of the rustbuster enumeration engine

Shallow embedding of the core of the `rustbuster` web enumeration tool:
candidate generation (`src/core/wordlist.rs`, `src/modes/*.rs`), the
event-streaming scan loops (`src/core/scanner.rs`, `src/modes/vhost.rs`),
response classification (`src/modes/vhost.rs`), Smart-404 false-positive
detection (`src/utils/smart_404.rs`), session bookkeeping
(`src/utils/session.rs`), recursive directory traversal
(`src/modes/dir.rs`) and HTTP method selection
(`src/core/http_client.rs`).

Machine integers (`u16`, `u64`, `usize`) are modelled as `Nat`: none of
the embedded code performs arithmetic that can overflow (status codes,
lengths and counters only grow by small increments), so wrap-around is
irrelevant to the verified properties. Rust `String` is modelled as Lean
`String`; the string primitives the code uses (`contains`, `replace`,
`to_uppercase`, `ends_with`) are given structurally recursive definitions
over `String.data` so that concrete instances evaluate inside the kernel.
-/

namespace Rustbuster

/-! ## String primitives used by the embedded code -/

/-- `str::contains(pat)` on character lists: some position of `s` starts
with `pat`. -/
def containsSubList (pat : List Char) : List Char → Bool
  | [] => pat.isEmpty
  | c :: rest => pat.isPrefixOf (c :: rest) || containsSubList pat rest

/-- Rust `str::contains(pat)`. -/
def rustContains (s pat : String) : Bool :=
  containsSubList pat.data s.data

/-- Fuel-driven worker for `str::replace`: at each position, if the
pattern starts here, emit the replacement and skip the pattern, else copy
one character. `fuel = s.length` suffices for the non-empty patterns the
code uses (each step consumes at least one input character). -/
def replaceListAux (pat rep : List Char) : Nat → List Char → List Char
  | 0, s => s
  | _ + 1, [] => []
  | fuel + 1, c :: rest =>
    if pat.isPrefixOf (c :: rest) then
      rep ++ replaceListAux pat rep fuel ((c :: rest).drop pat.length)
    else
      c :: replaceListAux pat rep fuel rest

/-- Rust `str::replace(pat, rep)`: replace every non-overlapping
occurrence of `pat`, left to right. -/
def rustReplace (s pat rep : String) : String :=
  String.mk (replaceListAux pat.data rep.data s.data.length s.data)

/-- ASCII uppercasing of a single character (what `str::to_uppercase`
does on the ASCII method names the code matches on). -/
def asciiUpperChar (c : Char) : Char :=
  if 97 ≤ c.toNat ∧ c.toNat ≤ 122 then Char.ofNat (c.toNat - 32) else c

/-- Rust `str::to_uppercase`, restricted to its ASCII action. -/
def rustToUpper (s : String) : String :=
  String.mk (s.data.map asciiUpperChar)

/-- Rust `str::ends_with(c)` for a single character. -/
def rustEndsWithChar (s : String) (c : Char) : Bool :=
  s.data.getLast? == some c

/-! ## Data model -/

/-- A normalized successful transport response, as the core consumes it:
HTTP status code (`response.status().as_u16()`), content length
(`response.content_length().unwrap_or(0)`), and the body text (used only
by the Smart-404 detector). -/
structure Response where
  status : Nat
  contentLength : Nat
  body : String
deriving DecidableEq, Repr

/-- The outcome of one probe: `Ok(response)` or a transport error
(`Err(_)` in the Rust `match`). -/
abbrev Outcome := Option Response

/-! ## Candidate generation (`src/core/wordlist.rs`) -/

/-- `Wordlist::expand_with_extensions` (src/core/wordlist.rs, lines
54-66): starts from an empty vector; for each word pushes the bare word,
then `word ++ ext` for each extension, in order. -/
def expandWithExtensions (words extensions : List String) : List String :=
  words.foldl
    (fun expanded word =>
      extensions.foldl (fun acc ext => acc ++ [word ++ ext]) (expanded ++ [word]))
    []

/-! ## Classification (`src/modes/vhost.rs`) -/

/-- The `default_status_codes` substitution performed by `run`
(src/modes/vhost.rs, lines 63-67) and `scan_vhost_with_tui` (lines
229-233): if both code lists are empty the positive list becomes
`(200..300)`, otherwise it is kept. -/
def defaultStatusCodes (statusCodes negativeCodes : List Nat) : List Nat :=
  if statusCodes.isEmpty && negativeCodes.isEmpty then
    List.range' 200 100
  else
    statusCodes

/-- The `should_display` decision of `run` (src/modes/vhost.rs, lines
116-123) and `scan_vhost_with_tui` (lines 258-264), applied to the
substituted positive list: a non-empty negative list rejects exactly its
members; else a non-empty positive list accepts exactly its members; else
accept the 200..300 range. -/
def shouldDisplay (statusCodes negativeCodes : List Nat) (status : Nat) : Bool :=
  if !negativeCodes.isEmpty then
    !negativeCodes.contains status
  else if !statusCodes.isEmpty then
    statusCodes.contains status
  else
    decide (200 ≤ status) && decide (status < 300)

/-- The full vhost classifier as both call sites compose it: the default
substitution, then `should_display`. -/
def vhostShouldDisplay (statusCodes negativeCodes : List Nat) (status : Nat) : Bool :=
  shouldDisplay (defaultStatusCodes statusCodes negativeCodes) negativeCodes status

/-! ## Event stream (`src/output/tui.rs`, `src/core/scanner.rs`,
`src/modes/vhost.rs`)

The scan loops run the per-candidate futures through
`buffer_unordered(threads).collect().await` and only then send `Done`;
each candidate's future first sends `Scanned`, then (depending on the
probe outcome) `Result`/`Error`. The traces below take the candidates
paired with their probe outcomes in completion order and concatenate the
per-candidate event blocks, then append the single `Done`; the
count-and-last-position properties proved about them are invariant under
the interleaving of blocks the real scheduler may produce. -/

/-- `TuiResult` (src/output/tui.rs): the fields of a `Matched` event the
claims inspect. -/
structure TuiResult where
  url : String
  statusCode : Nat
  contentLength : Nat
deriving DecidableEq, Repr

/-- `TuiMessage` (src/output/tui.rs, lines 253-258). -/
inductive TuiMessage where
  | result (r : TuiResult)
  | scanned
  | error
  | done
deriving DecidableEq, Repr

/-- Event block of one candidate in `Scanner::scan_urls_with_tui`
(src/core/scanner.rs, lines 78-107): send `Scanned`, probe, then on
`Ok` always send `Result` (no classification), on `Err` send `Error`. -/
def scanUrlsWithTuiBlock (url : String) (o : Outcome) : List TuiMessage :=
  TuiMessage.scanned ::
    match o with
    | some r => [TuiMessage.result ⟨url, r.status, r.contentLength⟩]
    | none => [TuiMessage.error]

/-- The event trace of `Scanner::scan_urls_with_tui` (src/core/scanner.rs,
lines 71-115) over the candidates with their outcomes in completion
order: the per-candidate blocks, then exactly one `Done`. -/
def scanUrlsWithTuiTrace (probes : List (String × Outcome)) : List TuiMessage :=
  (probes.flatMap fun p => scanUrlsWithTuiBlock p.1 p.2) ++ [TuiMessage.done]

/-- Event block of one candidate in `scan_vhost_with_tui`
(src/modes/vhost.rs, lines 245-295): send `Scanned`, probe, then on `Ok`
send `Result` only if `should_display`, on `Err` send `Error`. -/
def scanVhostWithTuiBlock (statusCodes negativeCodes : List Nat)
    (vhost : String) (o : Outcome) : List TuiMessage :=
  TuiMessage.scanned ::
    match o with
    | some r =>
        if vhostShouldDisplay statusCodes negativeCodes r.status then
          [TuiMessage.result ⟨vhost, r.status, r.contentLength⟩]
        else
          []
    | none => [TuiMessage.error]

/-- The event trace of `scan_vhost_with_tui` (src/modes/vhost.rs, lines
218-303): the per-candidate blocks, then exactly one `Done`. -/
def scanVhostWithTuiTrace (statusCodes negativeCodes : List Nat)
    (probes : List (String × Outcome)) : List TuiMessage :=
  (probes.flatMap fun p => scanVhostWithTuiBlock statusCodes negativeCodes p.1 p.2)
    ++ [TuiMessage.done]

/-! ## Non-TUI vhost run (`src/modes/vhost.rs`, `run`) -/

/-- Whether one probe of the non-TUI vhost loop (src/modes/vhost.rs,
lines 100-153) bumps the `found` counter: an `Ok` outcome with
`should_display || expanded`; errors and filtered outcomes do not. -/
def vhostCountsFound (expanded : Bool) (statusCodes negativeCodes : List Nat)
    (o : Outcome) : Bool :=
  match o with
  | some r => vhostShouldDisplay statusCodes negativeCodes r.status || expanded
  | none => false

/-- The final `found` count of the non-TUI vhost run (src/modes/vhost.rs,
lines 41, 126, 163) over the probe outcomes of the run. -/
def vhostFoundCount (expanded : Bool) (statusCodes negativeCodes : List Nat)
    (probes : List Outcome) : Nat :=
  probes.countP (vhostCountsFound expanded statusCodes negativeCodes)

/-- Whether one probe of the non-TUI vhost loop prints its result line
(src/modes/vhost.rs, lines 125-144): `should_display || expanded`, and
not quiet. -/
def vhostSurfacesOk (quiet expanded : Bool) (statusCodes negativeCodes : List Nat)
    (status : Nat) : Bool :=
  (vhostShouldDisplay statusCodes negativeCodes status || expanded) && !quiet

/-- Whether a transport error of the non-TUI vhost loop is surfaced
(src/modes/vhost.rs, lines 147-151): only when `expanded`. -/
def vhostSurfacesErr (expanded : Bool) : Bool :=
  expanded

/-! ## Smart-404 detector (`src/utils/smart_404.rs`) -/

/-- `Smart404Detector` state (src/utils/smart_404.rs, lines 8-12). The
SHA-256 of the `sha2` crate is external to this repository, so the
content hash is an explicit function parameter `hashContent` wherever the
detector uses it. -/
structure Smart404Detector where
  baselineHashes : List String
  baselineSizes : List Nat
  enabled : Bool
deriving Repr

/-- `Smart404Detector::new` (src/utils/smart_404.rs, lines 17-23). -/
def Smart404Detector.new (enabled : Bool) : Smart404Detector :=
  { baselineHashes := [], baselineSizes := [], enabled := enabled }

/-- `Smart404Detector::is_false_positive` (src/utils/smart_404.rs, lines
59-66): disabled detectors never flag; otherwise flag when the body's
hash is a baseline hash or the size is a baseline size. -/
def Smart404Detector.isFalsePositive (hashContent : String → String)
    (d : Smart404Detector) (body : String) (size : Nat) : Bool :=
  if !d.enabled then
    false
  else
    d.baselineHashes.contains (hashContent body) || d.baselineSizes.contains size

/-- The surfacing decision applied to one probe in the non-TUI Dir single
scan path (`run_single` → `Scanner::scan_urls` → `print_result`,
src/modes/dir.rs lines 79-125, src/core/scanner.rs lines 47-61,
src/output/handler.rs lines 86-89): every `Ok` outcome is printed unless
`quiet`; no status filter and no Smart-404 check is ever consulted. -/
def dirSingleSurfaces (quiet : Bool) (o : Outcome) : Bool :=
  match o with
  | some _ => !quiet
  | none => false

/-! ## Discovered directories (`src/core/scanner.rs`,
`src/output/handler.rs`) -/

/-- `Scanner::scan_urls` (src/core/scanner.rs, lines 37-69) applied to
the scanner's `discovered_dirs` field: the loop never pushes into it (the
push site at lines 52-54 is an empty block with a comment), so the field
is returned unchanged for any probe outcomes. -/
def scannerScanUrlsDirs (discoveredDirs : List String)
    (_probes : List (String × Outcome)) : List String :=
  discoveredDirs

/-- `Scanner::get_discovered_dirs` (src/core/scanner.rs, lines 134-136)
after `Scanner::new_from_common` (line 33, `discovered_dirs: Vec::new()`)
and one `scan_urls` call: the recursive driver's view of the discovered
directories. -/
def scannerDiscoveredAfterScan (probes : List (String × Outcome)) : List String :=
  scannerScanUrlsDirs [] probes

/-- The directory-recording step of `OutputHandler::print_result`
(src/output/handler.rs, lines 86-97) for one `Ok` outcome: skipped
entirely when `quiet && !expanded`; otherwise the URL is appended to the
handler's own `discovered_dirs` when the status is 301, 302 or 200 and
the URL ends with `/`. -/
def handlerPrintResultDirs (quiet expanded : Bool) (dirs : List String)
    (url : String) (status : Nat) : List String :=
  if quiet && !expanded then
    dirs
  else if (status == 301 || status == 302 || status == 200)
      && rustEndsWithChar url '/' then
    dirs ++ [url]
  else
    dirs

/-- The handler's `discovered_dirs` after `Scanner::scan_urls` processes
the given probes (each `Ok` outcome goes through
`print_result(result, false)`; errors are dropped). This list is read by
nothing in the program: `OutputHandler::get_discovered_dirs` is dead
code. -/
def handlerDirsAfterScan (quiet : Bool) (probes : List (String × Outcome)) : List String :=
  probes.foldl
    (fun dirs p =>
      match p.2 with
      | some r => handlerPrintResultDirs quiet false dirs p.1 r.status
      | none => dirs)
    []

/-! ## Sessions (`src/utils/session.rs`) -/

/-- `SessionResult` (src/utils/session.rs, lines 24-28). -/
structure SessionResult where
  url : String
  statusCode : Nat
  contentLength : Nat
deriving DecidableEq, Repr

/-- `Session` (src/utils/session.rs, lines 10-19). Timestamps are
abstract `Nat` instants. -/
structure Session where
  name : String
  createdAt : Nat
  lastUpdated : Nat
  target : String
  wordlist : String
  completedWords : List String
  totalWords : Nat
  foundResults : List SessionResult
deriving DecidableEq, Repr

/-- `Session::new` (src/utils/session.rs, lines 33-45). -/
def Session.new (name target wordlist : String) (totalWords : Nat)
    (now : Nat) : Session :=
  { name := name, createdAt := now, lastUpdated := now, target := target,
    wordlist := wordlist, completedWords := [], totalWords := totalWords,
    foundResults := [] }

/-- `Session::add_completed_word` (src/utils/session.rs, lines 73-75):
an unconditional `Vec::push`. -/
def Session.addCompletedWord (s : Session) (word : String) : Session :=
  { s with completedWords := s.completedWords ++ [word] }

/-- `Session::add_result` (src/utils/session.rs, lines 78-80). -/
def Session.addResult (s : Session) (r : SessionResult) : Session :=
  { s with foundResults := s.foundResults ++ [r] }

/-- `Session::is_word_completed` (src/utils/session.rs, lines 83-85). -/
def Session.isWordCompleted (s : Session) (word : String) : Bool :=
  s.completedWords.contains word

/-- The state change of `Session::save` (src/utils/session.rs, lines
48-58): refresh `last_updated`, then serialize; nothing else mutates. -/
def Session.markSaved (s : Session) (now : Nat) : Session :=
  { s with lastUpdated := now }

/-- The mutating operations callable on a `Session`. -/
inductive SessionOp where
  | addCompletedWord (word : String)
  | addResult (r : SessionResult)
  | save (now : Nat)
deriving DecidableEq, Repr

/-- Apply one session operation. -/
def Session.applyOp (s : Session) : SessionOp → Session
  | .addCompletedWord w => s.addCompletedWord w
  | .addResult r => s.addResult r
  | .save now => s.markSaved now

/-- Apply a sequence of session operations, first to last. -/
def Session.applyOps (s : Session) (ops : List SessionOp) : Session :=
  ops.foldl Session.applyOp s

/-- The word appended by an operation, when it appends one. -/
def SessionOp.addedWord : SessionOp → Option String
  | .addCompletedWord w => some w
  | _ => none

/-! ## Recursive Dir mode (`src/modes/dir.rs`, `run_recursive`) -/

/-- The `while let Some(..) = dirs_to_scan.pop()` loop of `run_recursive`
(src/modes/dir.rs, lines 156-199). `dirs_to_scan` is a `Vec` used as a
stack: `pop` takes the last element, `push` appends. `scanned_dirs` is
the `HashSet`, modelled as a membership list. What a scan of a base URL
discovers is abstracted as the oracle `discover` (in the shipped code it
is `Scanner::get_discovered_dirs`, which always returns the empty list;
the oracle proves the loop's invariants for every possible discovery
behaviour). The returned log records, in order, each `(url, depth)` the
loop actually scans. `fuel` bounds the number of iterations; the
invariants hold for every fuel. -/
def runRecursiveLoop (maxDepth : Nat) (discover : String → List String) :
    Nat → List String → List (String × Nat) → List (String × Nat) →
    List (String × Nat)
  | 0, _, _, log => log
  | fuel + 1, scannedDirs, dirsToScan, log =>
    match dirsToScan.getLast? with
    | none => log
    | some (currentUrl, depth) =>
      let rest := dirsToScan.dropLast
      if maxDepth < depth || scannedDirs.contains currentUrl then
        runRecursiveLoop maxDepth discover fuel scannedDirs rest log
      else
        let scannedDirs' := currentUrl :: scannedDirs
        let pushed :=
          ((discover currentUrl).filter (fun d => !scannedDirs'.contains d)).map
            (fun d => (d, depth + 1))
        runRecursiveLoop maxDepth discover fuel scannedDirs' (rest ++ pushed)
          (log ++ [(currentUrl, depth)])

/-- `run_recursive` starting state (src/modes/dir.rs, lines 129-130):
empty visited set, work stack holding the base URL at depth 0. -/
def runRecursiveLog (maxDepth : Nat) (discover : String → List String)
    (fuel : Nat) (baseUrl : String) : List (String × Nat) :=
  runRecursiveLoop maxDepth discover fuel [] [(baseUrl, 0)] []

/-! ## Fuzz mode (`src/modes/fuzz.rs`) -/

/-- The effective word list of a mode run (src/modes/fuzz.rs, lines
16-20): extension-expanded when extensions are configured, the raw
wordlist otherwise. -/
def effectiveWords (words extensions : List String) : List String :=
  if !extensions.isEmpty then expandWithExtensions words extensions else words

/-- `fuzz::run` up to the hand-off to the scanner (src/modes/fuzz.rs,
lines 6-25): a URL without the literal `FUZZ` fails with a configuration
error before anything is probed; otherwise the probed targets are the
URL with every `FUZZ` occurrence replaced by each effective word, in
word order. -/
def fuzzRun (url : String) (words extensions : List String) :
    Except String (List String) :=
  if !rustContains url "FUZZ" then
    Except.error "URL must contain the FUZZ keyword (e.g., http://example.com/FUZZ)"
  else
    Except.ok ((effectiveWords words extensions).map fun word =>
      rustReplace url "FUZZ" word)

/-! ## HTTP method selection (`src/core/http_client.rs`) -/

/-- The request builder variant chosen by `HttpClient::request`. -/
inductive ReqMethod where
  | get
  | post
  | head
  | put
  | delete
  | patch
deriving DecidableEq, Repr

/-- The `match method.to_uppercase().as_str()` of `HttpClient::request`
(src/core/http_client.rs, lines 90-98): the six known verbs map to their
builders, everything else falls through to `GET`; the match is total, so
no method string is an error. -/
def chooseMethod (method : String) : ReqMethod :=
  let m := rustToUpper method
  if m = "GET" then ReqMethod.get
  else if m = "POST" then ReqMethod.post
  else if m = "HEAD" then ReqMethod.head
  else if m = "PUT" then ReqMethod.put
  else if m = "DELETE" then ReqMethod.delete
  else if m = "PATCH" then ReqMethod.patch
  else ReqMethod.get

/-! ## Helper lemmas -/

theorem extensions_foldl_eq (w : String) (exts : List String) :
    ∀ acc : List String,
      exts.foldl (fun acc ext => acc ++ [w ++ ext]) acc
        = acc ++ exts.map (fun ext => w ++ ext) := by
  induction exts with
  | nil => intro acc; simp
  | cons e es ih =>
      intro acc
      simp [List.foldl_cons, ih]

theorem expandWithExtensions_foldl (exts : List String) :
    ∀ (ws : List String) (acc : List String),
      ws.foldl
          (fun expanded word =>
            exts.foldl (fun acc ext => acc ++ [word ++ ext]) (expanded ++ [word]))
          acc
        = acc ++ ws.flatMap (fun w => w :: exts.map (fun ext => w ++ ext)) := by
  intro ws
  induction ws with
  | nil => intro acc; simp
  | cons w ws ih =>
      intro acc
      rw [List.foldl_cons, extensions_foldl_eq, ih]
      simp

theorem expandWithExtensions_eq_flatMap (ws exts : List String) :
    expandWithExtensions ws exts
      = ws.flatMap (fun w => w :: exts.map (fun ext => w ++ ext)) := by
  simpa [expandWithExtensions] using expandWithExtensions_foldl exts ws []

theorem expandWithExtensions_cons (w : String) (ws exts : List String) :
    expandWithExtensions (w :: ws) exts
      = (w :: exts.map (fun ext => w ++ ext)) ++ expandWithExtensions ws exts := by
  simp [expandWithExtensions_eq_flatMap]

theorem expandWithExtensions_length (ws exts : List String) :
    (expandWithExtensions ws exts).length = ws.length * (1 + exts.length) := by
  induction ws with
  | nil => simp [expandWithExtensions]
  | cons w ws ih =>
      rw [expandWithExtensions_cons]
      simp [ih]
      ring

theorem expandWithExtensions_block (exts : List String) :
    ∀ (ws : List String) (i : Nat) (hi : i < ws.length) (k : Nat),
      k < 1 + exts.length →
      (expandWithExtensions ws exts)[i * (1 + exts.length) + k]?
        = (ws.get ⟨i, hi⟩ :: exts.map (fun ext => ws.get ⟨i, hi⟩ ++ ext))[k]? := by
  intro ws
  induction ws with
  | nil => intro i hi; simp at hi
  | cons w ws ih =>
      intro i hi k hk
      cases i with
      | zero =>
          rw [expandWithExtensions_cons]
          rw [List.getElem?_append_left (by simp; omega)]
          simp
      | succ i' =>
          rw [expandWithExtensions_cons]
          have hidx : (i' + 1) * (1 + exts.length) + k
              = (1 + exts.length) + (i' * (1 + exts.length) + k) := by ring
          rw [hidx]
          rw [List.getElem?_append_right (by simp; omega)]
          have hsub : (1 + exts.length) + (i' * (1 + exts.length) + k)
              - (w :: exts.map (fun ext => w ++ ext)).length
              = i' * (1 + exts.length) + k := by simp; omega
          rw [hsub]
          have hi' : i' < ws.length := by simpa using Nat.lt_of_succ_lt_succ hi
          exact ih i' hi' k hk

/-! ## Claim theorems -/

/-- C3: for every wordlist `W` and extension list `E`, the expanded
candidate list has exactly `len(W) * (1 + len(E))` entries, and for each
source word the bare word (at index `i * (1+len E)`) appears before every
one of its extension-expanded variants (at indices
`i * (1+len E) + 1 + j`). -/
theorem wordlist_expand_spec (W E : List String) :
    (expandWithExtensions W E).length = W.length * (1 + E.length) ∧
    ∀ i, (hi : i < W.length) →
      (expandWithExtensions W E)[i * (1 + E.length)]? = some (W.get ⟨i, hi⟩) ∧
      ∀ j, (hj : j < E.length) →
        i * (1 + E.length) < i * (1 + E.length) + 1 + j ∧
        (expandWithExtensions W E)[i * (1 + E.length) + 1 + j]?
          = some (W.get ⟨i, hi⟩ ++ E.get ⟨j, hj⟩) := by
  refine ⟨expandWithExtensions_length W E, ?_⟩
  intro i hi
  constructor
  · have h := expandWithExtensions_block E W i hi 0 (by omega)
    simpa using h
  · intro j hj
    refine ⟨by omega, ?_⟩
    have h := expandWithExtensions_block E W i hi (1 + j) (by omega)
    have hidx : i * (1 + E.length) + 1 + j = i * (1 + E.length) + (1 + j) := by ring
    rw [hidx, h]
    rw [Nat.add_comm 1 j]
    simp [List.getElem?_map, List.getElem?_eq_getElem, hj]

/-- C3 witness: the spec scenario, wordlist `["admin","login"]` with
extensions `[".php"]`. -/
theorem wordlist_expand_spec_witness :
    (0 < 2 ∧ 0 < 1) ∧
    (expandWithExtensions ["admin", "login"] [".php"])[0]? = some "admin" ∧
    (expandWithExtensions ["admin", "login"] [".php"])[1]? = some "admin.php" :=
  ⟨⟨by decide, by decide⟩,
    ((wordlist_expand_spec ["admin", "login"] [".php"]).2 0 (by decide)).1,
    (((wordlist_expand_spec ["admin", "login"] [".php"]).2 0 (by decide)).2 0
      (by decide)).2⟩

/-- C2: whenever the negative status-code set is non-empty, the vhost
classifier never accepts a status in it, whatever the positive set
holds. -/
theorem negative_codes_never_accepted (statusCodes negativeCodes : List Nat)
    (status : Nat) (hne : negativeCodes ≠ []) (hmem : status ∈ negativeCodes) :
    vhostShouldDisplay statusCodes negativeCodes status = false := by
  unfold vhostShouldDisplay shouldDisplay
  have h1 : negativeCodes.isEmpty = false := by
    simpa [List.isEmpty_iff] using hne
  simp [h1, hmem]

/-- C2 witness: positive codes `[404]`, negative codes `[404]`, status
404 is still rejected. -/
theorem negative_codes_never_accepted_witness :
    ([404] : List Nat) ≠ [] ∧ 404 ∈ ([404] : List Nat) ∧
    vhostShouldDisplay [404] [404] 404 = false :=
  ⟨by decide, by decide,
    negative_codes_never_accepted [404] [404] 404 (by decide) (by decide)⟩

/-- C10: any method string whose uppercasing is none of GET, POST, HEAD,
PUT, DELETE, PATCH falls through to the GET builder; the `match` in
`HttpClient::request` is total, so the method argument never produces an
error. -/
theorem unknown_method_falls_back_to_get (method : String)
    (h : rustToUpper method ∉
      (["GET", "POST", "HEAD", "PUT", "DELETE", "PATCH"] : List String)) :
    chooseMethod method = ReqMethod.get := by
  unfold chooseMethod
  simp only [List.mem_cons, List.not_mem_nil, or_false] at h
  push_neg at h
  obtain ⟨h1, h2, h3, h4, h5, h6⟩ := h
  simp [h1, h2, h3, h4, h5, h6]

/-- C10 witness: `"trace"` uppercases to `"TRACE"`, which is unknown and
is issued as a GET. -/
theorem unknown_method_falls_back_to_get_witness :
    rustToUpper "trace" ∉
      (["GET", "POST", "HEAD", "PUT", "DELETE", "PATCH"] : List String) ∧
    chooseMethod "trace" = ReqMethod.get :=
  ⟨by decide, unknown_method_falls_back_to_get "trace" (by decide)⟩

/-- C6: a Fuzz-mode URL without the literal `FUZZ` fails with a
configuration error before any probe target is built; otherwise the
probed targets are exactly the base URL with `FUZZ` replaced by each
word of the effective word list (the raw wordlist when no extensions are
configured), one target per word, in word order. -/
theorem fuzz_requires_fuzz_keyword (url : String) (words exts : List String) :
    (rustContains url "FUZZ" = false →
      fuzzRun url words exts =
        Except.error
          "URL must contain the FUZZ keyword (e.g., http://example.com/FUZZ)") ∧
    (rustContains url "FUZZ" = true →
      fuzzRun url words exts =
        Except.ok ((effectiveWords words exts).map fun word =>
          rustReplace url "FUZZ" word) ∧
      (exts = [] →
        fuzzRun url words exts =
          Except.ok (words.map fun word => rustReplace url "FUZZ" word)) ∧
      ∀ targets, fuzzRun url words exts = Except.ok targets →
        targets.length = (effectiveWords words exts).length ∧
        ∀ i, (hi : i < (effectiveWords words exts).length) →
          targets[i]? =
            some (rustReplace url "FUZZ" ((effectiveWords words exts).get ⟨i, hi⟩))) := by
  constructor
  · intro h
    simp [fuzzRun, h]
  · intro h
    refine ⟨by simp [fuzzRun, h], ?_, ?_⟩
    · intro hexts
      simp [fuzzRun, h, effectiveWords, hexts]
    · intro targets htargets
      simp only [fuzzRun, h, Bool.not_true, Bool.false_eq_true, if_false] at htargets
      cases htargets
      constructor
      · simp
      · intro i hi
        simp [List.getElem?_map, List.getElem?_eq_getElem, hi]

/-- C6 witness: the spec scenario — `http://x/FUZZ` with words
`["a","b"]` probes `http://x/a` then `http://x/b`; `http://x/` without
`FUZZ` is rejected before any target exists. -/
theorem fuzz_requires_fuzz_keyword_witness :
    fuzzRun "http://x/FUZZ" ["a", "b"] [] =
      Except.ok ["http://x/a", "http://x/b"] ∧
    fuzzRun "http://x/" ["a", "b"] [] =
      Except.error
        "URL must contain the FUZZ keyword (e.g., http://example.com/FUZZ)" :=
  ⟨by
    have h := ((fuzz_requires_fuzz_keyword "http://x/FUZZ" ["a", "b"] []).2
      (by decide)).1
    simpa using h,
   (fuzz_requires_fuzz_keyword "http://x/" ["a", "b"] []).1 (by decide)⟩

/-! ## Event-stream lemmas -/

/-- Discriminator for `Scanned` events. -/
def TuiMessage.isScanned : TuiMessage → Bool
  | .scanned => true
  | _ => false

/-- Discriminator for `Done` events. -/
def TuiMessage.isDoneMsg : TuiMessage → Bool
  | .done => true
  | _ => false

/-- Discriminator for `Result` (Matched) events. -/
def TuiMessage.isResultMsg : TuiMessage → Bool
  | .result _ => true
  | _ => false

theorem scanUrlsBlock_counts (url : String) (o : Outcome) :
    ((scanUrlsWithTuiBlock url o).countP TuiMessage.isScanned = 1) ∧
    ((scanUrlsWithTuiBlock url o).countP TuiMessage.isDoneMsg = 0) ∧
    ((scanUrlsWithTuiBlock url o).countP TuiMessage.isResultMsg
      = if o.isSome then 1 else 0) := by
  cases o <;>
    simp [scanUrlsWithTuiBlock, List.countP_cons, TuiMessage.isScanned,
      TuiMessage.isDoneMsg, TuiMessage.isResultMsg]

theorem scanVhostBlock_counts (statusCodes negativeCodes : List Nat)
    (vhost : String) (o : Outcome) :
    ((scanVhostWithTuiBlock statusCodes negativeCodes vhost o).countP
        TuiMessage.isScanned = 1) ∧
    ((scanVhostWithTuiBlock statusCodes negativeCodes vhost o).countP
        TuiMessage.isDoneMsg = 0) := by
  cases o with
  | none =>
      simp [scanVhostWithTuiBlock, List.countP_cons, TuiMessage.isScanned,
        TuiMessage.isDoneMsg]
  | some r =>
      by_cases hd : vhostShouldDisplay statusCodes negativeCodes r.status <;>
        simp [scanVhostWithTuiBlock, List.countP_cons, hd, TuiMessage.isScanned,
          TuiMessage.isDoneMsg]

theorem scanUrls_flatMap_counts (probes : List (String × Outcome)) :
    ((probes.flatMap fun p => scanUrlsWithTuiBlock p.1 p.2).countP
        TuiMessage.isScanned = probes.length) ∧
    ((probes.flatMap fun p => scanUrlsWithTuiBlock p.1 p.2).countP
        TuiMessage.isDoneMsg = 0) ∧
    ((probes.flatMap fun p => scanUrlsWithTuiBlock p.1 p.2).countP
        TuiMessage.isResultMsg = probes.countP fun p => p.2.isSome) := by
  induction probes with
  | nil => simp
  | cons p ps ih =>
      obtain ⟨ih1, ih2, ih3⟩ := ih
      obtain ⟨b1, b2, b3⟩ := scanUrlsBlock_counts p.1 p.2
      rw [List.flatMap_cons, List.countP_append, List.countP_append,
        List.countP_append, b1, b2, b3, ih1, ih2, ih3, List.countP_cons]
      refine ⟨by rw [List.length_cons]; omega, rfl, ?_⟩
      cases h : p.2 <;> simp [h, Nat.add_comm]

theorem scanVhost_flatMap_counts (statusCodes negativeCodes : List Nat)
    (probes : List (String × Outcome)) :
    ((probes.flatMap fun p =>
        scanVhostWithTuiBlock statusCodes negativeCodes p.1 p.2).countP
        TuiMessage.isScanned = probes.length) ∧
    ((probes.flatMap fun p =>
        scanVhostWithTuiBlock statusCodes negativeCodes p.1 p.2).countP
        TuiMessage.isDoneMsg = 0) := by
  induction probes with
  | nil => simp
  | cons p ps ih =>
      obtain ⟨ih1, ih2⟩ := ih
      obtain ⟨b1, b2⟩ := scanVhostBlock_counts statusCodes negativeCodes p.1 p.2
      rw [List.flatMap_cons, List.countP_append, List.countP_append,
        b1, b2, ih1, ih2]
      exact ⟨by rw [List.length_cons]; omega, rfl⟩

theorem scanVhost_result_mem (statusCodes negativeCodes : List Nat)
    (probes : List (String × Outcome)) (r : TuiResult)
    (hmem : TuiMessage.result r ∈
      probes.flatMap fun p =>
        scanVhostWithTuiBlock statusCodes negativeCodes p.1 p.2) :
    vhostShouldDisplay statusCodes negativeCodes r.statusCode = true := by
  induction probes with
  | nil => simp at hmem
  | cons p ps ih =>
      rw [List.flatMap_cons, List.mem_append] at hmem
      rcases hmem with hblk | hrest
      · cases h : p.2 with
        | none => rw [h] at hblk; simp [scanVhostWithTuiBlock] at hblk
        | some resp =>
            rw [h] at hblk
            by_cases hd : vhostShouldDisplay statusCodes negativeCodes resp.status
            · simp [scanVhostWithTuiBlock, hd] at hblk
              subst hblk
              exact hd
            · simp [scanVhostWithTuiBlock, hd] at hblk
      · exact ih hrest

/-- C1 counterexample: in the dir/fuzz TUI path
(`Scanner::scan_urls_with_tui`) a successful probe with status 404 emits
a `Matched` (`Result`) event even though the classifier — with nothing
configured, the default 200..300 rule — rejects 404. -/
theorem event_stream_counterexample :
    TuiMessage.result ⟨"http://x/a", 404, 0⟩ ∈
      scanUrlsWithTuiTrace [("http://x/a", some ⟨404, 0, ""⟩)] ∧
    vhostShouldDisplay [] [] 404 = false := by
  constructor
  · simp [scanUrlsWithTuiTrace, scanUrlsWithTuiBlock]
  · decide

/-- C1 amended: in every run, `Scanned` is emitted exactly once per
dispatched candidate (success or failure) and `Done` exactly once, as
the final event, in both scan loops; `Matched` is emitted only when the
classifier accepts in the vhost path, while the dir/fuzz path emits one
`Matched` per successful probe regardless of any classification. -/
theorem event_stream_discipline (probes : List (String × Outcome))
    (statusCodes negativeCodes : List Nat) :
    ((scanUrlsWithTuiTrace probes).countP TuiMessage.isScanned
        = probes.length) ∧
    ((scanVhostWithTuiTrace statusCodes negativeCodes probes).countP
        TuiMessage.isScanned = probes.length) ∧
    ((scanUrlsWithTuiTrace probes).countP TuiMessage.isDoneMsg = 1) ∧
    ((scanVhostWithTuiTrace statusCodes negativeCodes probes).countP
        TuiMessage.isDoneMsg = 1) ∧
    ((scanUrlsWithTuiTrace probes).getLast? = some TuiMessage.done) ∧
    ((scanVhostWithTuiTrace statusCodes negativeCodes probes).getLast?
        = some TuiMessage.done) ∧
    ((scanUrlsWithTuiTrace probes).countP TuiMessage.isResultMsg
        = probes.countP fun p => p.2.isSome) ∧
    (∀ r : TuiResult,
      TuiMessage.result r ∈ scanVhostWithTuiTrace statusCodes negativeCodes probes →
      vhostShouldDisplay statusCodes negativeCodes r.statusCode = true) := by
  obtain ⟨hu1, hu2, hu3⟩ := scanUrls_flatMap_counts probes
  obtain ⟨hv1, hv2⟩ := scanVhost_flatMap_counts statusCodes negativeCodes probes
  refine ⟨?_, ?_, ?_, ?_, ?_, ?_, ?_, ?_⟩
  · simp [scanUrlsWithTuiTrace, List.countP_append, hu1, TuiMessage.isScanned]
  · simp [scanVhostWithTuiTrace, List.countP_append, hv1, TuiMessage.isScanned]
  · simp [scanUrlsWithTuiTrace, List.countP_append, hu2, TuiMessage.isDoneMsg]
  · simp [scanVhostWithTuiTrace, List.countP_append, hv2, TuiMessage.isDoneMsg]
  · simp [scanUrlsWithTuiTrace]
  · simp [scanVhostWithTuiTrace]
  · simp [scanUrlsWithTuiTrace, List.countP_append, hu3, TuiMessage.isResultMsg]
  · intro r hr
    rw [scanVhostWithTuiTrace, List.mem_append] at hr
    rcases hr with hr | hr
    · exact scanVhost_result_mem statusCodes negativeCodes probes r hr
    · simp at hr

/-- C1 amended witness: one successful vhost probe with status 200 under
the default configuration. -/
theorem event_stream_discipline_witness :
    ((scanUrlsWithTuiTrace [("v", some ⟨200, 0, ""⟩)]).countP
        TuiMessage.isScanned = 1) ∧
    ((scanVhostWithTuiTrace [] [] [("v", some ⟨200, 0, ""⟩)]).getLast?
        = some TuiMessage.done) ∧
    (∀ r : TuiResult,
      TuiMessage.result r ∈ scanVhostWithTuiTrace [] [] [("v", some ⟨200, 0, ""⟩)] →
      vhostShouldDisplay [] [] r.statusCode = true) := by
  have h := event_stream_discipline [("v", some ⟨200, 0, ""⟩)] [] []
  exact ⟨h.1, h.2.2.2.2.2.1, h.2.2.2.2.2.2.2⟩

/-! ## Recursive traversal invariants -/

theorem runRecursiveLoop_invariant (maxDepth : Nat)
    (discover : String → List String) :
    ∀ (fuel : Nat) (scannedDirs : List String)
      (dirsToScan log : List (String × Nat)),
      (log.map Prod.fst).Nodup →
      (∀ u ∈ log.map Prod.fst, u ∈ scannedDirs) →
      (∀ p ∈ log, p.2 ≤ maxDepth) →
      ((runRecursiveLoop maxDepth discover fuel scannedDirs dirsToScan log).map
          Prod.fst).Nodup ∧
      (∀ p ∈ runRecursiveLoop maxDepth discover fuel scannedDirs dirsToScan log,
        p.2 ≤ maxDepth) := by
  intro fuel
  induction fuel with
  | zero =>
      intro scannedDirs dirsToScan log h1 _ h3
      exact ⟨h1, h3⟩
  | succ fuel ih =>
      intro scannedDirs dirsToScan log h1 h2 h3
      rw [runRecursiveLoop]
      cases hlast : dirsToScan.getLast? with
      | none => exact ⟨h1, h3⟩
      | some q =>
          obtain ⟨currentUrl, depth⟩ := q
          dsimp only
          by_cases hskip :
              (decide (maxDepth < depth) || scannedDirs.contains currentUrl) = true
          · rw [if_pos hskip]
            exact ih scannedDirs dirsToScan.dropLast log h1 h2 h3
          · rw [if_neg hskip]
            have hparts : depth ≤ maxDepth ∧ currentUrl ∉ scannedDirs := by
              simpa [not_or] using hskip
            obtain ⟨hdepth, hnotmem⟩ := hparts
            refine ih (currentUrl :: scannedDirs) _ (log ++ [(currentUrl, depth)])
              ?_ ?_ ?_
            · rw [List.map_append]
              rw [List.nodup_append]
              refine ⟨h1, by simp, ?_⟩
              intro u hu
              simp only [List.map_cons, List.map_nil, List.mem_singleton]
              intro hval
              subst hval
              exact hnotmem (h2 u hu)
            · intro u hu
              rw [List.map_append, List.mem_append] at hu
              rcases hu with hu | hu
              · exact List.mem_cons_of_mem _ (h2 u hu)
              · simp only [List.map_cons, List.map_nil, List.mem_singleton] at hu
                subst hu
                exact List.mem_cons_self _ _
            · intro p hp
              rw [List.mem_append] at hp
              rcases hp with hp | hp
              · exact h3 p hp
              · simp only [List.mem_singleton] at hp
                subst hp
                omega

/-- C7: for every depth bound, discovery behaviour, iteration budget and
base URL, the recursive Dir loop never scans the same fully-qualified
URL twice (the visited set dedups exact URL matches) and never expands a
directory whose depth exceeds `max_depth`. -/
theorem recursive_dir_no_rescan_no_overdepth (maxDepth : Nat)
    (discover : String → List String) (fuel : Nat) (baseUrl : String) :
    ((runRecursiveLog maxDepth discover fuel baseUrl).map Prod.fst).Nodup ∧
    (∀ p ∈ runRecursiveLog maxDepth discover fuel baseUrl, p.2 ≤ maxDepth) :=
  runRecursiveLoop_invariant maxDepth discover fuel [] [(baseUrl, 0)] []
    (by simp) (by simp) (by simp)

/-- C7 witness: depth bound 1, every scan claiming to discover two fixed
subdirectories, iteration budget 10. -/
theorem recursive_dir_no_rescan_no_overdepth_witness :
    ((runRecursiveLog 1 (fun _ => ["http://x/a/", "http://x/b/"]) 10
        "http://x/").map Prod.fst).Nodup ∧
    (∀ p ∈ runRecursiveLog 1 (fun _ => ["http://x/a/", "http://x/b/"]) 10
        "http://x/", p.2 ≤ 1) :=
  recursive_dir_no_rescan_no_overdepth 1
    (fun _ => ["http://x/a/", "http://x/b/"]) 10 "http://x/"

/-! ## Session invariants -/

/-- C8 counterexample: `Session::add_completed_word` pushes
unconditionally, so adding the same word twice makes it appear twice —
the at-most-once part of the claim fails on the code. -/
theorem session_words_counterexample :
    (Session.applyOps (Session.new "s" "t" "w" 2 0)
        [SessionOp.addCompletedWord "a",
         SessionOp.addCompletedWord "a"]).completedWords = ["a", "a"] ∧
    ¬ ((Session.applyOps (Session.new "s" "t" "w" 2 0)
        [SessionOp.addCompletedWord "a",
         SessionOp.addCompletedWord "a"]).completedWords).Nodup := by
  constructor
  · rfl
  · decide

/-- C8 amended: under every sequence of Session operations,
`completed_words` only grows append-only — the result is the prior list
followed by exactly the words the operations appended, in operation
order; but a word added twice appears twice, so at-most-once holds only
when callers guard with `is_word_completed`. -/
theorem session_words_append_only (s : Session) (ops : List SessionOp) :
    (Session.applyOps s ops).completedWords
      = s.completedWords ++ ops.filterMap SessionOp.addedWord := by
  induction ops generalizing s with
  | nil => simp [Session.applyOps]
  | cons op ops ih =>
      rw [Session.applyOps, List.foldl_cons]
      have h := ih (s.applyOp op)
      rw [Session.applyOps] at h
      rw [h]
      cases op <;>
        simp [Session.applyOp, Session.addCompletedWord, Session.addResult,
          Session.markSaved, SessionOp.addedWord]

/-- C8 amended witness: adding `"a"` then saving then adding `"b"`
appends exactly `["a", "b"]`. -/
theorem session_words_append_only_witness :
    (Session.applyOps (Session.new "s" "t" "w" 2 0)
        [SessionOp.addCompletedWord "a", SessionOp.save 5,
         SessionOp.addCompletedWord "b"]).completedWords
      = [] ++ ["a", "b"] :=
  session_words_append_only (Session.new "s" "t" "w" 2 0)
    [SessionOp.addCompletedWord "a", SessionOp.save 5,
     SessionOp.addCompletedWord "b"]

/-! ## Expanded flag -/

theorem countP_eq_of_pointwise {α : Type} (p q : α → Bool) (l : List α)
    (h : ∀ a, p a = q a) : l.countP p = l.countP q := by
  induction l with
  | nil => rfl
  | cons a l ih => rw [List.countP_cons, List.countP_cons, h, ih]

/-- C9 counterexample: with no filters configured, a successful probe
with status 404 is counted as `found` when `expanded` is set and not
counted when it is clear — setting the flag changes the count of found
results, contrary to the claim. -/
theorem expanded_flag_counterexample :
    vhostFoundCount true [] [] [some ⟨404, 0, ""⟩] = 1 ∧
    vhostFoundCount false [] [] [some ⟨404, 0, ""⟩] = 0 := by
  decide

/-- C9 amended: when `expanded` is set, every outcome is surfaced to the
sink regardless of the accept/reject decision (every success is printed
when not quiet, every transport error is reported), and the `found`
count then counts every successful probe — so the flag does inflate the
found count whenever the classifier rejects some successful outcome. -/
theorem expanded_flag_surfaces_everything (statusCodes negativeCodes : List Nat)
    (probes : List Outcome) :
    (∀ status : Nat,
      vhostSurfacesOk false true statusCodes negativeCodes status = true) ∧
    vhostSurfacesErr true = true ∧
    vhostFoundCount true statusCodes negativeCodes probes
      = probes.countP Option.isSome := by
  refine ⟨?_, rfl, ?_⟩
  · intro status
    simp [vhostSurfacesOk]
  · rw [vhostFoundCount]
    apply countP_eq_of_pointwise
    intro o
    cases o <;> simp [vhostCountsFound]

/-- C9 amended witness: one rejected success (404) and one error under
the default configuration with `expanded` set. -/
theorem expanded_flag_surfaces_everything_witness :
    vhostSurfacesErr true = true ∧
    vhostFoundCount true [] [] [some ⟨404, 0, ""⟩, none]
      = ([some ⟨404, 0, ""⟩, none] : List Outcome).countP Option.isSome :=
  ⟨(expanded_flag_surfaces_everything [] [] [some ⟨404, 0, ""⟩, none]).2.1,
   (expanded_flag_surfaces_everything [] [] [some ⟨404, 0, ""⟩, none]).2.2⟩

/-! ## Smart-404 (dead wiring) -/

/-- C4: the Smart-404 detector itself flags any outcome whose fingerprint
(content hash or byte size) is in the baseline set, but no scan path ever
consults it — at the failing input (status 200, body hash and size both
in the baseline) the only decisions the code actually applies, the
dir-mode surfacing and the vhost classifier, still accept the outcome. -/
theorem smart404_baseline_never_consulted :
    Smart404Detector.isFalsePositive (fun _ => "baselineHash")
      { baselineHashes := ["baselineHash"], baselineSizes := [1337],
        enabled := true }
      "<html>soft 404</html>" 1337 = true ∧
    dirSingleSurfaces false (some ⟨200, 1337, "<html>soft 404</html>"⟩) = true ∧
    vhostShouldDisplay [] [] 200 = true := by
  refine ⟨by rfl, by rfl, by decide⟩

/-! ## Discovered directories (dead wiring) -/

/-- C5: at the failing input — a successful probe of a URL ending in `/`
with status 301 — `Scanner::scan_urls` leaves the scanner's
`discovered_dirs` empty (the push site is an empty block), even though
`OutputHandler::print_result` records the URL in its own, never-read
list; consequently the recursive driver, which reads
`Scanner::get_discovered_dirs`, expands nothing beyond the base URL. -/
theorem discovered_dirs_never_surfaced :
    scannerDiscoveredAfterScan [("http://x/admin/", some ⟨301, 0, ""⟩)] = [] ∧
    handlerDirsAfterScan false [("http://x/admin/", some ⟨301, 0, ""⟩)]
      = ["http://x/admin/"] ∧
    runRecursiveLog 2
      (fun _ => scannerDiscoveredAfterScan
        [("http://x/admin/", some ⟨301, 0, ""⟩)])
      10 "http://x/" = [("http://x/", 0)] := by
  refine ⟨rfl, by decide, by decide⟩

end Rustbuster
